import Mathlib

/-!
Verification development for the CanonicalSpec repository.

The repository specifies a pipeline that compiles free-form requirement text
into an immutable, versioned Canonical Spec, judges it with a deterministic
Gate Engine (Gates S / T / V plus a weighted completeness score), drives a
per-feature state machine, and publishes exactly once to an external system
through an idempotent Publish Ledger.

The runnable engine (the Python package behind the API) is not part of the
repository snapshot; its behaviour is pinned down by the contract documents
under docs/ (gate tables, step I/O tables, ledger pseudocode, API contract)
and by the frontend sources.  Definitions below that embed the absent engine
are marked `Modelled from the spec:` and follow those contract documents
word by word.  The frontend health-check utility is real JavaScript source
and is embedded directly from it.
-/

namespace CanonicalSpec

/-! ## Canonical Spec data model (docs/mvp_contracts/01 schema, part_001) -/

/-- One acceptance criterion: `{id, criteria, test_hint}`; every field may be
absent in a draft, absence is modelled as `none`. -/
structure AcceptanceCriterion where
  id : Option String
  criteria : Option String
  test_hint : Option String
  deriving DecidableEq, Repr

/-- Task `type` enumeration from the schema: dev/test/doc/ops/design/research. -/
inductive TaskType where
  | dev | test | doc | ops | design | research
  deriving DecidableEq, Repr

/-- One planned task (the fields Gate T inspects). -/
structure Task where
  task_id : Option String
  title : Option String
  type : Option TaskType
  scope : Option String
  deriving DecidableEq, Repr

/-- Verification item `type` enumeration: unit/integration/e2e/manual/benchmark. -/
inductive VvType where
  | unit | integration | e2e | manual | benchmark
  deriving DecidableEq, Repr

/-- One verification item (the fields Gate V inspects). -/
structure VvItem where
  vv_id : Option String
  task_id : Option String
  type : Option VvType
  procedure : Option String
  expected_result : Option String
  deriving DecidableEq, Repr

/-- A Specification Version: the immutable compiled document.  `goal`,
`non_goals`, `acceptance_criteria` are the `spec.*` section; `tasks` and `vv`
the `planning.*` section; `constraints` is the optional section that appears
in the fuller technical-design schema but is outside the MVP gate tables. -/
structure SpecVersion where
  goal : Option String
  non_goals : Option (List String)
  acceptance_criteria : List AcceptanceCriterion
  constraints : Option (List String)
  tasks : List Task
  vv : List VvItem
  deriving DecidableEq, Repr

/-- A missing-field finding: `{path, reason}`. -/
structure MissingField where
  path : String
  reason : String
  deriving DecidableEq, Repr

/-- Result of one gate: pass flag, missing-field findings, reasons. -/
structure GateCheck where
  pass : Bool
  missing_fields : List MissingField
  reasons : List String
  deriving DecidableEq, Repr

/-- The four sub-scores of the weighted completeness score. -/
structure WeightedDetails where
  goal_quality : Rat
  acceptance_criteria_quality : Rat
  tasks_quality : Rat
  vv_quality : Rat
  deriving DecidableEq, Repr

/-- The full Gate Result wire shape. -/
structure GateResult where
  gate_s : GateCheck
  gate_t : GateCheck
  gate_v : GateCheck
  completeness_score : Rat
  weighted_details : WeightedDetails
  overall_pass : Bool
  next_action : String
  deriving DecidableEq, Repr

/-! ## Gate Engine (Modelled from the spec)

The gate engine implementation (Python `canonical` package) is absent from
the snapshot; the definitions follow docs/mvp_contracts/02_gate_model.md:
its hard-required tables for Gates S/T/V, its Python sub-score samples, and
its example Gate Result (which carries a completeness score alongside failing
gates, so the score is computed unconditionally). -/

/-- Does the first character list start with the second one. -/
def charsStartWith : List Char → List Char → Bool
  | _, [] => true
  | [], _ :: _ => false
  | a :: s, b :: t => a == b && charsStartWith s t

/-- Does the first character list contain the second as a contiguous run. -/
def charsContain : List Char → List Char → Bool
  | [], pat => pat.isEmpty
  | a :: s, pat => charsStartWith (a :: s) pat || charsContain s pat

/-- JavaScript-style substring test (String.prototype.includes), used by the
gate heuristics and by the health-check catch block. -/
def strContains (s pat : String) : Bool :=
  charsContain s.data pat.data

/-- Is a string empty or whitespace-only (what the client guard
`!input.trim()` and the API's empty-input rejection test). -/
def isBlank (s : String) : Bool :=
  s.data.all Char.isWhitespace

/-- Modelled from the spec: Gate S goal rule, "non-empty string, length at
least 10" (02_gate_model.md hard-required table). -/
def goalOk : Option String → Bool
  | none => false
  | some g => g != "" && decide (10 ≤ g.length)

/-- Modelled from the spec: Gate S check.  Each violated row of the
hard-required table contributes a missing-field finding; the gate passes iff
no finding was recorded (goal ok, non_goals present, at least one acceptance
criterion, every criterion carrying both id and criteria). -/
def gateSCheck (sv : SpecVersion) : GateCheck :=
  let mf :=
    (if goalOk sv.goal then [] else
      [MissingField.mk "spec.goal" "Gate S fail: goal missing or too short"])
    ++ (if sv.non_goals.isSome then [] else
      [MissingField.mk "spec.non_goals" "Gate S fail: non_goals field absent"])
    ++ (if sv.acceptance_criteria.isEmpty then
      [MissingField.mk "spec.acceptance_criteria" "Gate S fail: zero acceptance_criteria"] else [])
    ++ (if sv.acceptance_criteria.all (fun ac => ac.id.isSome) then [] else
      [MissingField.mk "spec.acceptance_criteria" "Gate S fail: acceptance_criteria without id"])
    ++ (if sv.acceptance_criteria.all (fun ac => ac.criteria.isSome) then [] else
      [MissingField.mk "spec.acceptance_criteria" "Gate S fail: acceptance_criteria without criteria"])
  { pass := mf.isEmpty, missing_fields := mf, reasons := mf.map (fun m => m.reason) }

/-- Modelled from the spec: a task's per-element Gate T requirements:
task_id, title, a valid type from the enumeration, a non-empty scope. -/
def taskFieldsOk (t : Task) : Bool :=
  t.task_id.isSome && t.title.isSome && t.type.isSome &&
    (match t.scope with
     | some s => s != ""
     | none => false)

/-- Modelled from the spec: Gate T check (at least one task, every task with
the required fields). -/
def gateTCheck (sv : SpecVersion) : GateCheck :=
  let mf :=
    (if sv.tasks.isEmpty then
      [MissingField.mk "planning.tasks" "Gate T fail: zero tasks"] else [])
    ++ (if sv.tasks.all taskFieldsOk then [] else
      [MissingField.mk "planning.tasks" "Gate T fail: task with missing required field"])
  { pass := mf.isEmpty, missing_fields := mf, reasons := mf.map (fun m => m.reason) }

/-- Modelled from the spec: a verification item's per-element Gate V
requirements: vv_id, a task_id referencing an existing task, procedure,
expected_result. -/
def vvFieldsOk (ts : List Task) (v : VvItem) : Bool :=
  v.vv_id.isSome &&
    (match v.task_id with
     | some tid => ts.any (fun t => t.task_id == some tid)
     | none => false) &&
    v.procedure.isSome && v.expected_result.isSome

/-- Modelled from the spec: a task is covered when some verification item
references it and carries a procedure and an expected result. -/
def taskCovered (vvs : List VvItem) (t : Task) : Bool :=
  match t.task_id with
  | some tid =>
      vvs.any (fun v => v.task_id == some tid && v.procedure.isSome && v.expected_result.isSome)
  | none => false

/-- Modelled from the spec: Gate V check (at least as many verification items
as tasks, every item well-formed, every task covered). -/
def gateVCheck (sv : SpecVersion) : GateCheck :=
  let mf :=
    (if decide (sv.tasks.length ≤ sv.vv.length) then [] else
      [MissingField.mk "planning.vv" "Gate V fail: fewer vv than tasks"])
    ++ (if sv.vv.all (vvFieldsOk sv.tasks) then [] else
      [MissingField.mk "planning.vv" "Gate V fail: vv with missing required field"])
    ++ (if sv.tasks.all (taskCovered sv.vv) then [] else
      [MissingField.mk "planning.vv" "Gate V fail: task without bound vv"])
  { pass := mf.isEmpty, missing_fields := mf, reasons := mf.map (fun m => m.reason) }

/-- Modelled from the spec: goal_quality, transcribed from the Python sample
in 02_gate_model.md (zero below length 10, then 0.6 length score capped at
500 characters plus 0.4 structure score). -/
def goal_quality : Option String → Rat
  | none => 0
  | some g =>
      if g = "" ∨ g.length < 10 then 0
      else
        let length_score : Rat := min 1 ((g.length : Rat) / 500)
        let structure_score : Rat :=
          if strContains g "目标" || strContains g "解决" then 1/2 else 3/10
        length_score * (6/10) + structure_score * (4/10)

/-- Modelled from the spec: acceptance_criteria_quality, transcribed from the
Python sample in 02_gate_model.md (0.7 count score saturating at 3, plus 0.3
test-hint coverage). -/
def ac_quality (acs : List AcceptanceCriterion) : Rat :=
  if acs.isEmpty then 0
  else
    let count_score : Rat := min 1 ((acs.length : Rat) / 3)
    let hint_score : Rat :=
      ((acs.countP (fun ac => ac.test_hint.isSome) : Nat) : Rat) / ((max acs.length 1 : Nat) : Rat)
    count_score * (7/10) + hint_score * (3/10)

/-- The six possible task types, used for the diversity heuristic. -/
def allTaskTypes : List TaskType :=
  [TaskType.dev, TaskType.test, TaskType.doc, TaskType.ops, TaskType.design, TaskType.research]

/-- Number of distinct task types present in a task list. -/
def distinctTaskTypes (ts : List Task) : Nat :=
  allTaskTypes.countP (fun tt => ts.any (fun t => t.type == some tt))

/-- Modelled from the spec: tasks_quality — the exact formula is not written
out in the repository; per the weighted-score table it combines the task
count (3 or more for full marks) with type diversity, deterministically. -/
def tasks_quality (ts : List Task) : Rat :=
  if ts.isEmpty then 0
  else
    min 1 ((ts.length : Rat) / 3) * (7/10) + ((distinctTaskTypes ts : Rat) / 6) * (3/10)

/-- The five possible verification types, used for the diversity heuristic. -/
def allVvTypes : List VvType :=
  [VvType.unit, VvType.integration, VvType.e2e, VvType.manual, VvType.benchmark]

/-- Number of distinct verification types present. -/
def distinctVvTypes (vvs : List VvItem) : Nat :=
  allVvTypes.countP (fun vt => vvs.any (fun v => v.type == some vt))

/-- Modelled from the spec: vv_quality — the exact formula is not written out
in the repository; per the weighted-score table it combines per-task coverage
with type diversity, deterministically. -/
def vv_quality (ts : List Task) (vvs : List VvItem) : Rat :=
  ((ts.countP (taskCovered vvs) : Nat) : Rat) / ((max ts.length 1 : Nat) : Rat) * (7/10)
    + ((distinctVvTypes vvs : Rat) / 5) * (3/10)

/-- Modelled from the spec: the Gate Engine.  A pure function of the
Specification Version: all three gates are checked and the weighted score is
computed unconditionally (the contract's example Gate Result carries a score
next to failing gates), with the published weights 0.30/0.25/0.25/0.20. -/
def evaluate (sv : SpecVersion) : GateResult :=
  let gs := gateSCheck sv
  let gt := gateTCheck sv
  let gv := gateVCheck sv
  let wd : WeightedDetails :=
    { goal_quality := goal_quality sv.goal
      acceptance_criteria_quality := ac_quality sv.acceptance_criteria
      tasks_quality := tasks_quality sv.tasks
      vv_quality := vv_quality sv.tasks sv.vv }
  let score :=
    wd.goal_quality * (3/10) + wd.acceptance_criteria_quality * (1/4)
      + wd.tasks_quality * (1/4) + wd.vv_quality * (1/5)
  let overall := gs.pass && gt.pass && gv.pass
  { gate_s := gs, gate_t := gt, gate_v := gv
    completeness_score := score
    weighted_details := wd
    overall_pass := overall
    next_action := if overall then "manual_review" else "clarify" }

/-! ## Spec Store (Modelled from the spec)

The `CanonicalSpecStore` implementation is absent from the snapshot; the
definitions follow the `put`/`get`/`latest` contract of the spec: immutable,
versioned, append-only storage with a per-feature strictly increasing
version identifier. -/

/-- Spec Store state for one feature: the append-only list of
(version identifier, content) pairs, in creation order. -/
abbrev SpecStore := List (Nat × SpecVersion)

/-- The version identifiers currently stored. -/
def versionIds (store : SpecStore) : List Nat :=
  store.map Prod.fst

/-- Modelled from the spec: the next (strictly greater than any prior)
version identifier. -/
def nextVersion (store : SpecStore) : Nat :=
  (versionIds store).foldr max 0 + 1

/-- Modelled from the spec: `put(featureId, content) -> versionId` appends a
new immutable version with a fresh, strictly greater identifier. -/
def put (store : SpecStore) (c : SpecVersion) : SpecStore × Nat :=
  (store ++ [(nextVersion store, c)], nextVersion store)

/-- Modelled from the spec: `get(featureId, versionId)` returns the exact
stored content, or none for NotFound. -/
def get (store : SpecStore) (v : Nat) : Option SpecVersion :=
  (store.find? (fun e => e.1 == v)).map Prod.snd

/-- Iterated `put`: the store after a sequence of successful mutating steps. -/
def putMany (store : SpecStore) (cs : List SpecVersion) : SpecStore :=
  cs.foldl (fun s c => (put s c).1) store

/-- The version identifiers produced, in order, by a sequence of `put`s. -/
def producedIds (store : SpecStore) (cs : List SpecVersion) : List Nat :=
  match cs with
  | [] => []
  | c :: rest => (put store c).2 :: producedIds (put store c).1 rest

/-! ## Orchestrator steps and snapshots (Modelled from the spec)

The Orchestrator implementation is absent from the snapshot; the definitions
follow docs/mvp_contracts/03_orchestrator_steps_io.md: the step table (which
steps write a new spec version), the Step Snapshot schema (output version
null on failure), and the hard constraint that every step execution appends
exactly one snapshot. -/

/-- The nine pipeline step names. -/
inductive StepName where
  | ingest | compile | validate_gates | clarify_questions | apply_answers
  | plan_tasks | generate_vv | manual_review | publish
  deriving DecidableEq, Repr

/-- Modelled from the spec: which steps mutate the Specification Version
(step table of 03_orchestrator_steps_io.md). -/
def mutatesSpec : StepName → Bool
  | .compile => true
  | .apply_answers => true
  | .plan_tasks => true
  | .generate_vv => true
  | _ => false

/-- How one step execution ended: success, failure, or operator abort. -/
inductive StepOutcome where
  | success
  | failure (errs : List String)
  | aborted (err : String)
  deriving DecidableEq, Repr

/-- A recorded decision: reason and chosen next step. -/
structure Decision where
  decision : String
  reason : String
  next_step : String
  deriving DecidableEq, Repr

/-- One Step Snapshot, the append-only audit record of a step execution. -/
structure StepSnapshot where
  run_id : String
  feature_id : String
  spec_version_in : Option Nat
  spec_version_out : Option Nat
  step_name : StepName
  seq : Nat
  decisions : List Decision
  errors : List String
  deriving DecidableEq, Repr

/-- Orchestrator-visible state for one feature: its Spec Store and its
snapshot log. -/
structure OrchState where
  store : SpecStore
  snapshots : List StepSnapshot
  deriving DecidableEq, Repr

/-- The latest (highest) stored version identifier, if any. -/
def latestVersion (store : SpecStore) : Option Nat :=
  (versionIds store).max?

/-- Modelled from the spec: the single snapshot recorded for one step
execution — errors recorded, output version null unless the step succeeded,
and equal to the input version for read-only steps. -/
def stepSnapshotOf (st : OrchState) (run_id feature_id : String) (step : StepName)
    (seq : Nat) (outcome : StepOutcome) (ds : List Decision) : StepSnapshot :=
  let vin := latestVersion st.store
  match outcome with
  | .success =>
      { run_id := run_id, feature_id := feature_id, spec_version_in := vin
        spec_version_out := if mutatesSpec step then some (nextVersion st.store) else vin
        step_name := step, seq := seq, decisions := ds, errors := [] }
  | .failure errs =>
      { run_id := run_id, feature_id := feature_id, spec_version_in := vin
        spec_version_out := none, step_name := step, seq := seq
        decisions := ds, errors := errs }
  | .aborted e =>
      { run_id := run_id, feature_id := feature_id, spec_version_in := vin
        spec_version_out := none, step_name := step, seq := seq
        decisions := ds, errors := [e] }

/-- Modelled from the spec: one Orchestrator step execution.  On success a
mutating step writes exactly one new Spec Store version (the content the
external compiler returned); read-only steps and failed or aborted steps
leave the store untouched; every execution appends exactly one snapshot. -/
def runStep (st : OrchState) (run_id feature_id : String) (step : StepName)
    (seq : Nat) (outcome : StepOutcome) (newContent : SpecVersion)
    (ds : List Decision) : OrchState :=
  let store2 :=
    match outcome with
    | .success => if mutatesSpec step then (put st.store newContent).1 else st.store
    | _ => st.store
  { store := store2
    snapshots := st.snapshots ++ [stepSnapshotOf st run_id feature_id step seq outcome ds] }

/-! ## Per-feature state machine (from part_002 of the repository) -/

/-- The six feature lifecycle states. -/
inductive FeatureStatus where
  | draft | clarifying | executable_ready | published | hold | drop
  deriving DecidableEq, Repr

/-- The legal transitions of the per-feature state machine, transcribed edge
by edge from the state diagram in the repository (draft to clarifying on gate
fail, clarifying back to draft on applied answers, clarifying and draft to
executable_ready on gate pass, executable_ready to published/hold/drop on the
human decision, hold to clarifying or drop; published and drop terminal). -/
def allowedTransition : FeatureStatus → FeatureStatus → Bool
  | .draft, .clarifying => true
  | .draft, .executable_ready => true
  | .clarifying, .draft => true
  | .clarifying, .executable_ready => true
  | .executable_ready, .published => true
  | .executable_ready, .hold => true
  | .executable_ready, .drop => true
  | .hold, .clarifying => true
  | .hold, .drop => true
  | _, _ => false

/-! ## Publish Ledger + Adapter (Modelled from the spec)

The publisher implementation is absent from the snapshot; `upsert_feature`
is transcribed from the Python pseudocode of the publish contract
(04 feishu_publish contract), with the external tracking system abstracted
as an environment and the external calls made recorded explicitly. -/

/-- Ledger entry status enumeration (database check constraint). -/
inductive LedgerStatus where
  | active | superseded | rolled_back | failed
  deriving DecidableEq, Repr

/-- Publish operation enumeration (database check constraint). -/
inductive PubOperation where
  | created | updated | noop
  deriving DecidableEq, Repr

/-- One Publish Ledger Entry (the fields the idempotency logic inspects). -/
structure LedgerEntry where
  feature_id : String
  target : String
  spec_version : String
  external_id : String
  operation : PubOperation
  status : LedgerStatus
  deriving DecidableEq, Repr

/-- The idempotency key test: does an entry carry this
(feature identifier, target, specification version) triple. -/
def tripleMatches (fid tgt sv : String) (e : LedgerEntry) : Bool :=
  e.feature_id == fid && e.target == tgt && e.spec_version == sv

/-- The external tracking system, abstracted: which external record (if any)
already exists for a feature, and the record identifier a create returns. -/
structure PublishEnv where
  findExisting : String → Option String
  createdId : String

/-- An external call made by the adapter. -/
inductive ExtCall where
  | updateRecord (external_id : String)
  | createRecord
  deriving DecidableEq, Repr

/-- Everything `upsert_feature` produces: the returned operation and external
identifier, the ledger afterwards, and the external calls that were made. -/
structure UpsertResult where
  operation : PubOperation
  external_id : String
  ledger : List LedgerEntry
  calls : List ExtCall
  deriving Repr

/-- Modelled from the spec: the non-noop path of the publish pseudocode —
look up the feature's existing external record; update it if present (same
feature published before under a different version), otherwise create a new
record; then append a new active Ledger Entry. -/
def publishCore (env : PublishEnv) (ledger : List LedgerEntry)
    (fid tgt sv : String) : UpsertResult :=
  match env.findExisting fid with
  | some ext =>
      { operation := .updated, external_id := ext
        ledger := ledger ++ [{ feature_id := fid, target := tgt, spec_version := sv
                               external_id := ext, operation := .updated, status := .active }]
        calls := [.updateRecord ext] }
  | none =>
      { operation := .created, external_id := env.createdId
        ledger := ledger ++ [{ feature_id := fid, target := tgt, spec_version := sv
                               external_id := env.createdId, operation := .created, status := .active }]
        calls := [.createRecord] }

/-- Modelled from the spec: `upsert_feature` — step 1 of the publish
pseudocode looks up the ledger by the idempotency triple; an active entry
short-circuits to a noop with its external identifier and no external call;
otherwise the publish proceeds. -/
def upsert_feature (env : PublishEnv) (ledger : List LedgerEntry)
    (fid tgt sv : String) : UpsertResult :=
  match ledger.find? (tripleMatches fid tgt sv) with
  | some e =>
      if e.status = .active then
        { operation := .noop, external_id := e.external_id, ledger := ledger, calls := [] }
      else publishCore env ledger fid tgt sv
  | none => publishCore env ledger fid tgt sv

/-- Number of ledger entries carrying a given idempotency triple. -/
def entriesForTriple (ledger : List LedgerEntry) (fid tgt sv : String) : Nat :=
  ledger.countP (tripleMatches fid tgt sv)

/-- Number of ACTIVE ledger entries carrying a given idempotency triple. -/
def activeForTriple (ledger : List LedgerEntry) (fid tgt sv : String) : Nat :=
  ledger.countP (fun e => tripleMatches fid tgt sv e && e.status == LedgerStatus.active)

/-- The database uniqueness constraint on the ledger table:
at most one row per (feature identifier, target, specification version). -/
def dbUniqueTriple (ledger : List LedgerEntry) : Prop :=
  ∀ fid tgt sv, entriesForTriple ledger fid tgt sv ≤ 1

/-- The uniqueness invariant of the spec: at most one ACTIVE entry per
idempotency triple. -/
def atMostOneActive (ledger : List LedgerEntry) : Prop :=
  ∀ fid tgt sv, activeForTriple ledger fid tgt sv ≤ 1

/-! ## Run entry point (Modelled from the spec)

The API server implementation is absent from the snapshot; `runEndpoint`
follows the POST /api/v1/run contract: empty input is rejected with a 400
INVALID_INPUT error, any other input is compiled (the external compiler is a
black-box parameter) into a draft specification version whose gaps are the
Gate Engine's structured missing-field findings. -/

/-- An API error response: HTTP status, detail, error code. -/
structure RunError where
  http_status : Nat
  detail : String
  error_code : String
  deriving DecidableEq, Repr

/-- The run endpoint's success payload: feature status, the new specification
version, and its Gate Result. -/
structure RunResult where
  feature_status : FeatureStatus
  spec : SpecVersion
  gate_result : GateResult
  deriving DecidableEq, Repr

/-- Modelled from the spec: POST /api/v1/run — reject input whose trimmed
text is empty with 400 INVALID_INPUT (the client also refuses to send it);
otherwise compile and evaluate, the feature landing in clarifying when a gate
fails and executable_ready when all pass. -/
def runEndpoint (compiler : String → SpecVersion) (input : String) :
    Except RunError RunResult :=
  if isBlank input then
    Except.error { http_status := 400, detail := "Input cannot be empty"
                   error_code := "INVALID_INPUT" }
  else
    let sv := compiler input
    let gr := evaluate sv
    Except.ok { feature_status := if gr.overall_pass then .executable_ready else .clarifying
                spec := sv, gate_result := gr }

/-! ## Frontend backend-health check (embedded from the JavaScript source)

`checkBackendHealth` is real source in the snapshot; the fetch and its
possible failures are modelled as an explicit outcome value, and the
function's branches are transcribed one for one. -/

/-- A JavaScript error value as the catch block observes it. -/
structure JsError where
  name : String
  message : String
  deriving DecidableEq, Repr

/-- The parsed response body, as far as checkBackendHealth inspects it:
its status field (absent modelled as none). -/
structure HealthBody where
  status : Option String
  deriving DecidableEq, Repr

/-- Outcome of the awaited fetch: either a response (with its ok flag, HTTP
status code, and the result of parsing its body as JSON) or a thrown error
(abort on timeout, TypeError on network failure, anything else). -/
inductive FetchOutcome where
  | response (ok : Bool) (httpStatus : Nat) (body : Except JsError HealthBody)
  | failure (err : JsError)

/-- The object checkBackendHealth resolves to. -/
structure HealthResult where
  healthy : Bool
  error : Option String
  data : Option HealthBody
  deriving DecidableEq, Repr

/-- JavaScript `data.status || 'unknown'`: a missing or empty status string
falls back to "unknown". -/
def statusOrUnknown : Option String → String
  | some s => if s = "" then "unknown" else s
  | none => "unknown"

/-- The catch block of checkBackendHealth: AbortError becomes the timeout
message, a TypeError whose message mentions fetch becomes the connection
message, anything else the generic failure message. -/
def healthCatch (e : JsError) : HealthResult :=
  if e.name == "AbortError" then
    { healthy := false, error := some "后端服务响应超时，请检查服务是否启动", data := none }
  else if e.name == "TypeError" && strContains e.message "fetch" then
    { healthy := false, error := some "无法连接到后端服务，请检查服务是否启动", data := none }
  else
    { healthy := false, error := some ("健康检查失败: " ++ e.message), data := none }

/-- checkBackendHealth, transcribed from the JavaScript: a non-ok response
reports the HTTP status; an ok response is healthy exactly when the parsed
body's status is healthy or ok, and otherwise reports the abnormal status; a
body-parse failure or a thrown fetch error lands in the catch block. -/
def checkBackendHealth : FetchOutcome → HealthResult
  | .response false code _ =>
      { healthy := false
        error := some ("后端服务响应异常 (HTTP " ++ toString code ++ ")")
        data := none }
  | .response true _ (Except.error e) => healthCatch e
  | .response true _ (Except.ok body) =>
      if body.status == some "healthy" || body.status == some "ok" then
        { healthy := true, error := none, data := some body }
      else
        { healthy := false
          error := some ("后端服务状态异常: " ++ statusOrUnknown body.status)
          data := some body }
  | .failure e => healthCatch e

/-! ## Shared helper lemmas -/

theorem isEmpty_append_list {α : Type} (l₁ l₂ : List α) :
    (l₁ ++ l₂).isEmpty = (l₁.isEmpty && l₂.isEmpty) := by
  cases l₁ <;> simp

theorem isEmpty_if_nil_left {α : Type} (b : Bool) (x : α) :
    (if b then ([] : List α) else [x]).isEmpty = b := by
  cases b <;> simp

theorem isEmpty_if_nil_right {α : Type} (b : Bool) (x : α) :
    (if b then [x] else ([] : List α)).isEmpty = !b := by
  cases b <;> simp

theorem gateSCheck_pass (sv : SpecVersion) :
    (gateSCheck sv).pass =
      (goalOk sv.goal && sv.non_goals.isSome && !sv.acceptance_criteria.isEmpty
        && sv.acceptance_criteria.all (fun ac => ac.id.isSome)
        && sv.acceptance_criteria.all (fun ac => ac.criteria.isSome)) := by
  cases h1 : goalOk sv.goal <;> cases h2 : sv.non_goals.isSome <;>
    cases h3 : sv.acceptance_criteria.isEmpty <;>
    cases h4 : sv.acceptance_criteria.all (fun ac => ac.id.isSome) <;>
    cases h5 : sv.acceptance_criteria.all (fun ac => ac.criteria.isSome) <;>
      simp [gateSCheck, h1, h2, h3, h4, h5]

theorem goalOk_iff (g : Option String) :
    goalOk g = true ↔ ∃ s, g = some s ∧ s ≠ "" ∧ 10 ≤ s.length := by
  cases g with
  | none => simp [goalOk]
  | some s => simp [goalOk, bne_iff_ne]

/-! ## Claim C2 — Gate S characterization -/

/-- The claim's literal reading of the acceptance-criteria condition,
following the spec's words: Gate S passes iff the goal is non-empty and long
enough, non-goals is present, and AT LEAST ONE acceptance criterion has both
an id and criteria text. -/
def gateS_specReading (sv : SpecVersion) : Bool :=
  goalOk sv.goal && sv.non_goals.isSome
    && sv.acceptance_criteria.any (fun ac => ac.id.isSome && ac.criteria.isSome)

/-- A specification version with a valid goal, non-goals present, and two
acceptance criteria: one complete, one missing its id. -/
def twoAcSpec : SpecVersion :=
  { goal := some "Add login feature please"
    non_goals := some []
    acceptance_criteria :=
      [ { id := some "AC-1", criteria := some "User can log in", test_hint := none }
      , { id := none, criteria := some "Another criterion", test_hint := none } ]
    constraints := none
    tasks := []
    vv := [] }

/-- C2 counterexample: on `twoAcSpec` the claim's condition (at least one
acceptance criterion with both id and criteria) holds, yet Gate S fails,
because the gate table requires EVERY criterion to carry id and criteria. -/
theorem gateS_atLeastOne_reading_false :
    gateS_specReading twoAcSpec = true ∧ (evaluate twoAcSpec).gate_s.pass = false := by
  constructor <;> rfl

/-- C2 (amended): Gate S passes iff the goal is a non-empty string of length
at least 10, the non-goals field is present, at least one acceptance
criterion exists and EVERY acceptance criterion has both an id and criteria
text; and no other field of the specification version (tasks, verification
items, or a constraints field) affects the Gate S result. -/
theorem gateS_pass_characterization (sv : SpecVersion) :
    ((evaluate sv).gate_s.pass = true ↔
      ((∃ g, sv.goal = some g ∧ g ≠ "" ∧ 10 ≤ g.length)
        ∧ sv.non_goals.isSome = true
        ∧ sv.acceptance_criteria ≠ []
        ∧ ∀ ac ∈ sv.acceptance_criteria, ac.id.isSome = true ∧ ac.criteria.isSome = true))
    ∧ (∀ t v c, (evaluate { sv with tasks := t, vv := v, constraints := c }).gate_s
          = (evaluate sv).gate_s) := by
  constructor
  · have h : (evaluate sv).gate_s = gateSCheck sv := rfl
    rw [h, gateSCheck_pass]
    simp only [Bool.and_eq_true, Bool.not_eq_true', List.isEmpty_eq_false,
      goalOk_iff, List.all_eq_true]
    constructor
    · rintro ⟨⟨⟨⟨hg, hn⟩, he⟩, hid⟩, hcr⟩
      exact ⟨hg, hn, he, fun ac hac => ⟨hid ac hac, hcr ac hac⟩⟩
    · rintro ⟨hg, hn, he, hall⟩
      exact ⟨⟨⟨⟨hg, hn⟩, he⟩, fun ac hac => (hall ac hac).1⟩, fun ac hac => (hall ac hac).2⟩
  · intro t v c
    rfl

/-! ## Claim C4 — Gate V is vacuously passed at zero tasks and zero vv -/

/-- C4: on any specification version with zero tasks and zero verification
items, Gate V is still evaluated and passes (the count condition holds as
0 at most 0 and per-task coverage is vacuous), while Gate T fails and the
overall verdict is negative, so the feature cannot reach ready. -/
theorem gateV_vacuous_pass (sv : SpecVersion)
    (ht : sv.tasks = []) (hv : sv.vv = []) :
    (evaluate sv).gate_v.pass = true
      ∧ (evaluate sv).gate_t.pass = false
      ∧ (evaluate sv).overall_pass = false := by
  have hgv : (evaluate sv).gate_v = gateVCheck sv := rfl
  have hgt : (evaluate sv).gate_t = gateTCheck sv := rfl
  have hv1 : (evaluate sv).gate_v.pass = true := by
    rw [hgv]
    simp [gateVCheck, ht, hv]
  have ht1 : (evaluate sv).gate_t.pass = false := by
    rw [hgt]
    simp [gateTCheck, ht]
  refine ⟨hv1, ht1, ?_⟩
  have hov : (evaluate sv).overall_pass
      = ((gateSCheck sv).pass && (gateTCheck sv).pass && (gateVCheck sv).pass) := rfl
  rw [hov, ← hgt, ht1]
  simp

/-- C4 witness: the all-empty specification version has zero tasks and zero
verification items; Gate V passes on it while Gate T and the overall verdict
fail. -/
theorem gateV_vacuous_pass_witness :
    (evaluate (SpecVersion.mk none none [] none [] [])).gate_v.pass = true
      ∧ (evaluate (SpecVersion.mk none none [] none [] [])).gate_t.pass = false
      ∧ (evaluate (SpecVersion.mk none none [] none [] [])).overall_pass = false :=
  gateV_vacuous_pass (SpecVersion.mk none none [] none [] []) rfl rfl

/-! ## Claim C8 — transitions out of the clarifying state -/

/-- C8 counterexample: it is NOT the case that a clarifying feature can only
move to draft — the state machine of the repository also has the direct edge
from clarifying to executable_ready (taken when the recompiled version passes
all gates). -/
theorem clarifying_not_only_to_draft :
    ¬ (∀ s, allowedTransition FeatureStatus.clarifying s = true → s = FeatureStatus.draft) := by
  intro h
  have := h FeatureStatus.executable_ready rfl
  exact absurd this (by decide)

/-- C8 (amended): from the clarifying state the feature transitions either to
draft (answers applied + recompile, re-entering gate evaluation) or directly
to executable_ready (when the recompiled version passes all gates); no other
state is reachable from clarifying. -/
theorem clarifying_transitions (s : FeatureStatus) :
    allowedTransition FeatureStatus.clarifying s = true
      ↔ (s = FeatureStatus.draft ∨ s = FeatureStatus.executable_ready) := by
  cases s <;> simp [allowedTransition]

/-! ## Claim C3 — weighted completeness score -/

theorem goal_quality_bounds (g : Option String) :
    0 ≤ goal_quality g ∧ goal_quality g ≤ 1 := by
  cases g with
  | none => simp [goal_quality]
  | some s =>
      simp only [goal_quality]
      split
      · norm_num
      · have hls0 : (0:Rat) ≤ min 1 ((s.length : Rat) / 500) :=
          le_min (by norm_num) (by positivity)
        have hls1 : min 1 ((s.length : Rat) / 500) ≤ 1 := min_le_left _ _
        split <;> constructor <;> nlinarith [hls0, hls1]

theorem ratio_bounds (c m : Nat) (hcm : c ≤ m) (hm : 1 ≤ m) :
    0 ≤ ((c : Nat) : Rat) / ((m : Nat) : Rat) ∧ ((c : Nat) : Rat) / ((m : Nat) : Rat) ≤ 1 := by
  have hm0 : (0:Rat) < (m : Rat) := by exact_mod_cast Nat.lt_of_lt_of_le Nat.zero_lt_one hm
  constructor
  · positivity
  · rw [div_le_one hm0]
    exact_mod_cast hcm

theorem ac_quality_bounds (acs : List AcceptanceCriterion) :
    0 ≤ ac_quality acs ∧ ac_quality acs ≤ 1 := by
  simp only [ac_quality]
  split
  · norm_num
  · have hcs0 : (0:Rat) ≤ min 1 ((acs.length : Rat) / 3) :=
      le_min (by norm_num) (by positivity)
    have hcs1 : min 1 ((acs.length : Rat) / 3) ≤ 1 := min_le_left _ _
    have hh := ratio_bounds (acs.countP (fun ac => ac.test_hint.isSome)) (max acs.length 1)
      (Nat.le_trans (List.countP_le_length _) (Nat.le_max_left _ _)) (Nat.le_max_right _ _)
    constructor <;> nlinarith [hcs0, hcs1, hh.1, hh.2]

theorem distinctTaskTypes_le_six (ts : List Task) : distinctTaskTypes ts ≤ 6 :=
  List.countP_le_length _

theorem tasks_quality_bounds (ts : List Task) :
    0 ≤ tasks_quality ts ∧ tasks_quality ts ≤ 1 := by
  simp only [tasks_quality]
  split
  · norm_num
  · have hcs0 : (0:Rat) ≤ min 1 ((ts.length : Rat) / 3) :=
      le_min (by norm_num) (by positivity)
    have hcs1 : min 1 ((ts.length : Rat) / 3) ≤ 1 := min_le_left _ _
    have hd6 : ((distinctTaskTypes ts : Nat) : Rat) ≤ 6 := by
      exact_mod_cast distinctTaskTypes_le_six ts
    have hd0 : (0:Rat) ≤ ((distinctTaskTypes ts : Nat) : Rat) := by positivity
    constructor <;> nlinarith [hcs0, hcs1, hd6, hd0]

theorem distinctVvTypes_le_five (vvs : List VvItem) : distinctVvTypes vvs ≤ 5 :=
  List.countP_le_length _

theorem vv_quality_bounds (ts : List Task) (vvs : List VvItem) :
    0 ≤ vv_quality ts vvs ∧ vv_quality ts vvs ≤ 1 := by
  simp only [vv_quality]
  have hc := ratio_bounds (ts.countP (taskCovered vvs)) (max ts.length 1)
    (Nat.le_trans (List.countP_le_length _) (Nat.le_max_left _ _)) (Nat.le_max_right _ _)
  have hd5 : ((distinctVvTypes vvs : Nat) : Rat) ≤ 5 := by
    exact_mod_cast distinctVvTypes_le_five vvs
  have hd0 : (0:Rat) ≤ ((distinctVvTypes vvs : Nat) : Rat) := by positivity
  constructor <;> nlinarith [hc.1, hc.2, hd5, hd0]

/-- C3: for every specification version the completeness score equals
0.30 times goal quality plus 0.25 times acceptance-criteria quality plus
0.25 times task quality plus 0.20 times verification quality, each sub-score
lies in the closed interval from 0 to 1, the reported weighted details are
exactly those four sub-scores, and the score itself lies in that interval.
The statement is unconditional in the specification version, so the score is
computed also when Gate S, Gate T, or Gate V fails. -/
theorem completeness_score_formula (sv : SpecVersion) :
    (evaluate sv).completeness_score
        = (3/10) * goal_quality sv.goal + (1/4) * ac_quality sv.acceptance_criteria
          + (1/4) * tasks_quality sv.tasks + (1/5) * vv_quality sv.tasks sv.vv
    ∧ (evaluate sv).weighted_details
        = WeightedDetails.mk (goal_quality sv.goal) (ac_quality sv.acceptance_criteria)
            (tasks_quality sv.tasks) (vv_quality sv.tasks sv.vv)
    ∧ (0 ≤ goal_quality sv.goal ∧ goal_quality sv.goal ≤ 1)
    ∧ (0 ≤ ac_quality sv.acceptance_criteria ∧ ac_quality sv.acceptance_criteria ≤ 1)
    ∧ (0 ≤ tasks_quality sv.tasks ∧ tasks_quality sv.tasks ≤ 1)
    ∧ (0 ≤ vv_quality sv.tasks sv.vv ∧ vv_quality sv.tasks sv.vv ≤ 1)
    ∧ 0 ≤ (evaluate sv).completeness_score
    ∧ (evaluate sv).completeness_score ≤ 1 := by
  have hs : (evaluate sv).completeness_score
      = goal_quality sv.goal * (3/10) + ac_quality sv.acceptance_criteria * (1/4)
        + tasks_quality sv.tasks * (1/4) + vv_quality sv.tasks sv.vv * (1/5) := rfl
  have hg := goal_quality_bounds sv.goal
  have ha := ac_quality_bounds sv.acceptance_criteria
  have htq := tasks_quality_bounds sv.tasks
  have hvq := vv_quality_bounds sv.tasks sv.vv
  refine ⟨by rw [hs]; ring, rfl, hg, ha, htq, hvq, ?_, ?_⟩
  · rw [hs]; nlinarith [hg.1, ha.1, htq.1, hvq.1]
  · rw [hs]; nlinarith [hg.2, ha.2, htq.2, hvq.2]

/-! ## Claim C6 — which steps write a Spec Store version -/

/-- The all-empty specification version, used as a concrete input. -/
def emptySpec : SpecVersion :=
  SpecVersion.mk none none [] none [] []

/-- C6: on success, a mutating step (and exactly compile, apply_answers,
plan_tasks, generate_vv are mutating) appends exactly one new version to the
Spec Store, leaving all prior versions in place; a read-only step (and
exactly validate_gates, clarify_questions, manual_review, publish are
read-only among the post-compile steps) leaves the Spec Store unchanged on
every outcome. -/
theorem mutating_steps_version_discipline (st : OrchState) (rid fid : String)
    (step : StepName) (seq : Nat) (c : SpecVersion) (ds : List Decision) :
    (mutatesSpec step = true →
      (runStep st rid fid step seq StepOutcome.success c ds).store
        = st.store ++ [(nextVersion st.store, c)])
    ∧ (mutatesSpec step = false →
      ∀ outcome, (runStep st rid fid step seq outcome c ds).store = st.store)
    ∧ mutatesSpec StepName.compile = true
    ∧ mutatesSpec StepName.apply_answers = true
    ∧ mutatesSpec StepName.plan_tasks = true
    ∧ mutatesSpec StepName.generate_vv = true
    ∧ mutatesSpec StepName.validate_gates = false
    ∧ mutatesSpec StepName.clarify_questions = false
    ∧ mutatesSpec StepName.manual_review = false
    ∧ mutatesSpec StepName.publish = false := by
  refine ⟨?_, ?_, rfl, rfl, rfl, rfl, rfl, rfl, rfl, rfl⟩
  · intro h
    simp [runStep, put, h]
  · intro h outcome
    cases outcome <;> simp [runStep, h]

/-- C6 witness: at the empty Orchestrator state, a successful compile step
stores exactly one new version and a successful publish step stores none. -/
theorem mutating_steps_version_discipline_witness :
    (runStep (OrchState.mk [] []) "R-1" "F-1" StepName.compile 2 StepOutcome.success
        emptySpec []).store = [] ++ [(nextVersion [], emptySpec)]
      ∧ (runStep (OrchState.mk [] []) "R-1" "F-1" StepName.publish 9 StepOutcome.success
          emptySpec []).store = [] :=
  ⟨(mutating_steps_version_discipline (OrchState.mk [] []) "R-1" "F-1"
      StepName.compile 2 emptySpec []).1 rfl,
    (mutating_steps_version_discipline (OrchState.mk [] []) "R-1" "F-1"
      StepName.publish 9 emptySpec []).2.1 rfl StepOutcome.success⟩

/-! ## Claim C7 — every step execution produces exactly one snapshot -/

/-- C7: every step execution — success, failure, or abort — appends exactly
one Step Snapshot to the snapshot log (the prior log is untouched, so
snapshots are never mutated), and the snapshot of a failed or aborted
execution carries a null output version. -/
theorem every_step_one_snapshot (st : OrchState) (rid fid : String)
    (step : StepName) (seq : Nat) (outcome : StepOutcome) (c : SpecVersion)
    (ds : List Decision) :
    (runStep st rid fid step seq outcome c ds).snapshots
        = st.snapshots ++ [stepSnapshotOf st rid fid step seq outcome ds]
    ∧ (runStep st rid fid step seq outcome c ds).snapshots.length
        = st.snapshots.length + 1
    ∧ (∀ errs, (stepSnapshotOf st rid fid step seq (StepOutcome.failure errs) ds).spec_version_out
        = none)
    ∧ (∀ e, (stepSnapshotOf st rid fid step seq (StepOutcome.aborted e) ds).spec_version_out
        = none) := by
  refine ⟨rfl, by simp [runStep], fun _ => rfl, fun _ => rfl⟩

/-! ## Claim C5 — version monotonicity and immutability of the Spec Store -/

theorem le_foldr_max (l : List Nat) : ∀ i ∈ l, i ≤ l.foldr max 0 := by
  induction l with
  | nil => intro i hi; cases hi
  | cons a t ih =>
      intro i hi
      rcases List.mem_cons.mp hi with h | h
      · subst h; exact le_max_left _ _
      · exact le_trans (ih i h) (le_max_right _ _)

theorem mem_ids_lt_nextVersion (store : SpecStore) :
    ∀ i ∈ versionIds store, i < nextVersion store := by
  intro i hi
  exact Nat.lt_succ_of_le (le_foldr_max (versionIds store) i hi)

theorem versionIds_put (store : SpecStore) (c : SpecVersion) :
    versionIds (put store c).1 = versionIds store ++ [nextVersion store] := by
  simp [put, versionIds]

theorem produced_gt_all (cs : List SpecVersion) :
    ∀ (store : SpecStore), ∀ i ∈ producedIds store cs, ∀ j ∈ versionIds store, j < i := by
  induction cs with
  | nil => intro store i hi; simp [producedIds] at hi
  | cons c rest ih =>
      intro store i hi j hj
      rw [show producedIds store (c :: rest)
          = (put store c).2 :: producedIds (put store c).1 rest from rfl] at hi
      rcases List.mem_cons.mp hi with h | h
      · subst h
        exact mem_ids_lt_nextVersion store j hj
      · refine ih (put store c).1 i h j ?_
        rw [versionIds_put]
        exact List.mem_append_left _ hj

theorem produced_pairwise (cs : List SpecVersion) :
    ∀ store : SpecStore, (producedIds store cs).Pairwise (· < ·) := by
  induction cs with
  | nil => intro store; simp [producedIds]
  | cons c rest ih =>
      intro store
      rw [show producedIds store (c :: rest)
          = (put store c).2 :: producedIds (put store c).1 rest from rfl]
      refine List.Pairwise.cons ?_ (ih _)
      intro b hb
      refine produced_gt_all rest (put store c).1 b hb (put store c).2 ?_
      rw [versionIds_put]
      exact List.mem_append_right _ (List.mem_singleton.mpr rfl)

theorem find?_append_of_isSome {α : Type} (l₁ l₂ : List α) (p : α → Bool)
    (h : (l₁.find? p).isSome = true) : (l₁ ++ l₂).find? p = l₁.find? p := by
  rw [List.find?_append]
  cases hf : l₁.find? p with
  | none => rw [hf] at h; simp at h
  | some a => simp

theorem get_put_of_isSome (store : SpecStore) (c : SpecVersion) (v : Nat)
    (h : (get store v).isSome = true) : get (put store c).1 v = get store v := by
  have h2 : (store.find? (fun e => e.1 == v)).isSome = true := by
    simpa [get] using h
  simp only [get, put]
  rw [find?_append_of_isSome _ _ _ h2]

theorem get_putMany_of_isSome (cs : List SpecVersion) :
    ∀ (store : SpecStore) (v : Nat), (get store v).isSome = true →
      get (putMany store cs) v = get store v := by
  induction cs with
  | nil => intro store v _; rfl
  | cons c rest ih =>
      intro store v h
      have h2 : get (put store c).1 v = get store v := get_put_of_isSome store c v h
      rw [show putMany store (c :: rest) = putMany (put store c).1 rest from rfl]
      rw [ih (put store c).1 v (by rw [h2]; exact h), h2]

/-- C5: for any Spec Store state, the version identifiers produced by a
sequence of successful mutating steps (iterated put) are strictly increasing
in order of creation, are all fresh (never colliding with an identifier
already stored, hence globally unique), and stored versions are immutable:
any previously stored identifier still fetches exactly the content it had
before the sequence ran. -/
theorem version_monotonic_and_immutable (store : SpecStore) (cs : List SpecVersion) :
    (producedIds store cs).Pairwise (· < ·)
    ∧ (∀ i ∈ producedIds store cs, i ∉ versionIds store)
    ∧ (∀ v : Nat, (get store v).isSome = true →
        get (putMany store cs) v = get store v) := by
  refine ⟨produced_pairwise cs store, ?_, fun v h => get_putMany_of_isSome cs store v h⟩
  intro i hi hmem
  exact lt_irrefl i (produced_gt_all cs store i hi i hmem)

/-- C5 witness: starting from a store holding version 1, two further puts
produce strictly increasing fresh identifiers and re-fetching version 1
returns exactly its original content. -/
theorem version_monotonic_and_immutable_witness :
    (producedIds [(1, emptySpec)] [emptySpec, emptySpec]).Pairwise (· < ·)
      ∧ get (putMany [(1, emptySpec)] [emptySpec, emptySpec]) 1 = get [(1, emptySpec)] 1 :=
  ⟨(version_monotonic_and_immutable [(1, emptySpec)] [emptySpec, emptySpec]).1,
    (version_monotonic_and_immutable [(1, emptySpec)] [emptySpec, emptySpec]).2.2 1 rfl⟩

/-! ## Claim C1 — publish idempotency and the active-entry uniqueness -/

theorem band_left {a b : Bool} (h : (a && b) = true) : a = true := by
  simp only [Bool.and_eq_true] at h
  exact h.1

theorem band_right {a b : Bool} (h : (a && b) = true) : b = true := by
  simp only [Bool.and_eq_true] at h
  exact h.2

theorem find?_eq_of_countP_le_one {α : Type} (l : List α) (p : α → Bool) (a : α)
    (hc : l.countP p ≤ 1) (ha : a ∈ l) (hpa : p a = true) : l.find? p = some a := by
  induction l with
  | nil => cases ha
  | cons b t ih =>
      by_cases hb : p b = true
      · rw [List.find?_cons_of_pos _ hb]
        rcases List.mem_cons.mp ha with h | h
        · rw [h]
        · exfalso
          simp only [List.countP_cons, hb, if_true] at hc
          have h0 : t.countP p = 0 := by omega
          exact (List.countP_eq_zero.mp h0) a h hpa
      · rw [List.find?_cons_of_neg _ hb]
        apply ih
        · simp only [List.countP_cons, hb, if_false] at hc
          omega
        · rcases List.mem_cons.mp ha with h | h
          · subst h; exact absurd hpa hb
          · exact h

theorem publishCore_ledger_shape (env : PublishEnv) (ledger : List LedgerEntry)
    (fid tgt sv : String) :
    ∃ n : LedgerEntry, (publishCore env ledger fid tgt sv).ledger = ledger ++ [n]
      ∧ n.feature_id = fid ∧ n.target = tgt ∧ n.spec_version = sv
      ∧ n.status = LedgerStatus.active := by
  cases h : env.findExisting fid with
  | some ext =>
      exact ⟨LedgerEntry.mk fid tgt sv ext PubOperation.updated LedgerStatus.active,
        by simp [publishCore, h], rfl, rfl, rfl, rfl⟩
  | none =>
      exact ⟨LedgerEntry.mk fid tgt sv env.createdId PubOperation.created LedgerStatus.active,
        by simp [publishCore, h], rfl, rfl, rfl, rfl⟩

theorem active_count_le_triple_count (l : List LedgerEntry) (f t s : String) :
    l.countP (fun e => tripleMatches f t s e && e.status == LedgerStatus.active)
      ≤ l.countP (tripleMatches f t s) :=
  List.countP_mono_left (fun _ _ hpa => band_left hpa)

theorem activeCount_append_le_one (l : List LedgerEntry) (n : LedgerEntry) (f t s : String)
    (hbound : l.countP (fun e => tripleMatches f t s e && e.status == LedgerStatus.active) ≤ 1)
    (hz : tripleMatches f t s n = true →
      l.countP (fun e => tripleMatches f t s e && e.status == LedgerStatus.active) = 0) :
    (l ++ [n]).countP (fun e => tripleMatches f t s e && e.status == LedgerStatus.active) ≤ 1 := by
  rw [List.countP_append]
  by_cases hm : (tripleMatches f t s n && n.status == LedgerStatus.active) = true
  · rw [hz (band_left hm)]
    simp [List.countP_cons, hm]
  · have h1 : List.countP (fun e => tripleMatches f t s e && e.status == LedgerStatus.active) [n] = 0 := by
      simp only [List.countP_cons, List.countP_nil]
      simp [hm]
    omega

theorem triple_of_matches (n : LedgerEntry) (f t s fid tgt sv : String)
    (hn1 : n.feature_id = fid) (hn2 : n.target = tgt) (hn3 : n.spec_version = sv)
    (htr : tripleMatches f t s n = true) : fid = f ∧ tgt = t ∧ sv = s := by
  unfold tripleMatches at htr
  rw [hn1, hn2, hn3] at htr
  have h2 : (fid = f ∧ tgt = t) ∧ sv = s := by simpa using htr
  exact ⟨h2.1.1, h2.1.2, h2.2⟩

theorem upsert_keeps_atMostOneActive (env : PublishEnv) (ledger : List LedgerEntry)
    (fid tgt sv : String) (hu : dbUniqueTriple ledger) :
    atMostOneActive (upsert_feature env ledger fid tgt sv).ledger := by
  intro f t s
  have hbound : ledger.countP (fun e => tripleMatches f t s e && e.status == LedgerStatus.active) ≤ 1 :=
    le_trans (active_count_le_triple_count ledger f t s) (hu f t s)
  cases hfind : ledger.find? (tripleMatches fid tgt sv) with
  | some e2 =>
      by_cases hact : e2.status = LedgerStatus.active
      · have hres : (upsert_feature env ledger fid tgt sv).ledger = ledger := by
          simp [upsert_feature, hfind, hact]
        unfold activeForTriple
        rw [hres]
        exact hbound
      · obtain ⟨n, hshape, hn1, hn2, hn3, hn4⟩ := publishCore_ledger_shape env ledger fid tgt sv
        have hres : (upsert_feature env ledger fid tgt sv).ledger = ledger ++ [n] := by
          rw [show upsert_feature env ledger fid tgt sv = publishCore env ledger fid tgt sv by
            simp [upsert_feature, hfind, hact]]
          exact hshape
        unfold activeForTriple
        rw [hres]
        refine activeCount_append_le_one ledger n f t s hbound ?_
        intro htr
        obtain ⟨hff, htt, hss⟩ := triple_of_matches n f t s fid tgt sv hn1 hn2 hn3 htr
        subst hff; subst htt; subst hss
        rw [List.countP_eq_zero]
        intro a hmem hpa
        have hta : tripleMatches fid tgt sv a = true := band_left hpa
        have hsa : a.status = LedgerStatus.active := by
          have h2 := band_right hpa
          simpa using h2
        have hfa := find?_eq_of_countP_le_one ledger (tripleMatches fid tgt sv) a
          (hu fid tgt sv) hmem hta
        rw [hfind] at hfa
        injection hfa with hea
        exact hact (by rw [hea]; exact hsa)
  | none =>
      obtain ⟨n, hshape, hn1, hn2, hn3, hn4⟩ := publishCore_ledger_shape env ledger fid tgt sv
      have hres : (upsert_feature env ledger fid tgt sv).ledger = ledger ++ [n] := by
        rw [show upsert_feature env ledger fid tgt sv = publishCore env ledger fid tgt sv by
          simp [upsert_feature, hfind]]
        exact hshape
      unfold activeForTriple
      rw [hres]
      refine activeCount_append_le_one ledger n f t s hbound ?_
      intro htr
      obtain ⟨hff, htt, hss⟩ := triple_of_matches n f t s fid tgt sv hn1 hn2 hn3 htr
      subst hff; subst htt; subst hss
      rw [List.countP_eq_zero]
      intro a hmem hpa
      have hta : tripleMatches fid tgt sv a = true := band_left hpa
      exact (List.find?_eq_none.mp hfind) a hmem hta

/-- C1: under the database uniqueness constraint on the idempotency triple,
if an ACTIVE ledger entry for (featureId, target, specVersion) exists then
the publish upsert returns operation noop carrying that entry's external
identifier, makes no external call, and leaves the ledger unchanged — so no
second active entry for the triple is created; moreover, after any upsert on
any ledger satisfying the database constraint, at most one active entry per
triple exists. -/
theorem publish_upsert_idempotent (env : PublishEnv) (ledger : List LedgerEntry)
    (fid tgt sv : String) (e : LedgerEntry)
    (hu : dbUniqueTriple ledger) (he : e ∈ ledger)
    (ht : tripleMatches fid tgt sv e = true) (ha : e.status = LedgerStatus.active) :
    (upsert_feature env ledger fid tgt sv).operation = PubOperation.noop
    ∧ (upsert_feature env ledger fid tgt sv).external_id = e.external_id
    ∧ (upsert_feature env ledger fid tgt sv).calls = []
    ∧ (upsert_feature env ledger fid tgt sv).ledger = ledger
    ∧ (∀ (env2 : PublishEnv) (l2 : List LedgerEntry) (f2 t2 s2 : String),
        dbUniqueTriple l2 → atMostOneActive (upsert_feature env2 l2 f2 t2 s2).ledger) := by
  have hfind : ledger.find? (tripleMatches fid tgt sv) = some e :=
    find?_eq_of_countP_le_one ledger (tripleMatches fid tgt sv) e (hu fid tgt sv) he ht
  have hred : upsert_feature env ledger fid tgt sv
      = UpsertResult.mk PubOperation.noop e.external_id ledger [] := by
    simp [upsert_feature, hfind, ha]
  rw [hred]
  exact ⟨rfl, rfl, rfl, rfl,
    fun env2 l2 f2 t2 s2 h2 => upsert_keeps_atMostOneActive env2 l2 f2 t2 s2 h2⟩

/-- C1 witness: with one active ledger entry for the triple
("F-1", "feishu", "S-1"), repeating the upsert returns a noop with the same
external identifier, makes no external call, and keeps the ledger as it is. -/
theorem publish_upsert_idempotent_witness :
    (upsert_feature (PublishEnv.mk (fun _ => none) "rec-2")
        [LedgerEntry.mk "F-1" "feishu" "S-1" "rec-1" PubOperation.created LedgerStatus.active]
        "F-1" "feishu" "S-1").operation = PubOperation.noop
    ∧ (upsert_feature (PublishEnv.mk (fun _ => none) "rec-2")
        [LedgerEntry.mk "F-1" "feishu" "S-1" "rec-1" PubOperation.created LedgerStatus.active]
        "F-1" "feishu" "S-1").external_id = "rec-1"
    ∧ (upsert_feature (PublishEnv.mk (fun _ => none) "rec-2")
        [LedgerEntry.mk "F-1" "feishu" "S-1" "rec-1" PubOperation.created LedgerStatus.active]
        "F-1" "feishu" "S-1").calls = []
    ∧ (upsert_feature (PublishEnv.mk (fun _ => none) "rec-2")
        [LedgerEntry.mk "F-1" "feishu" "S-1" "rec-1" PubOperation.created LedgerStatus.active]
        "F-1" "feishu" "S-1").ledger
      = [LedgerEntry.mk "F-1" "feishu" "S-1" "rec-1" PubOperation.created LedgerStatus.active] := by
  have h := publish_upsert_idempotent (PublishEnv.mk (fun _ => none) "rec-2")
    [LedgerEntry.mk "F-1" "feishu" "S-1" "rec-1" PubOperation.created LedgerStatus.active]
    "F-1" "feishu" "S-1"
    (LedgerEntry.mk "F-1" "feishu" "S-1" "rec-1" PubOperation.created LedgerStatus.active)
    (fun _ _ _ => List.countP_le_length _)
    (List.mem_singleton.mpr rfl) rfl rfl
  exact ⟨h.1, h.2.1, h.2.2.1, h.2.2.2.1⟩

/-! ## Claim C9 — the run entry point on empty and non-empty input -/

/-- C9 counterexample: the run entry point does NOT accept every input — on
the empty string it returns the hard 400 INVALID_INPUT error of the API
contract instead of producing a draft version. -/
theorem run_rejects_empty_input :
    runEndpoint (fun _ => emptySpec) ""
      = Except.error (RunError.mk 400 "Input cannot be empty" "INVALID_INPUT") := rfl

/-- C9 (amended): for every input that is not empty or whitespace-only, the
run entry point never returns an error: it produces a specification version
(whatever the black-box compiler extracted) together with its Gate Result,
in which any missing field is recorded as a structured missing-field finding
(in particular a missing goal yields a non-empty finding list); empty input
is instead rejected with 400 INVALID_INPUT, and the client guards against
sending it. -/
theorem run_no_hard_failure (compiler : String → SpecVersion) (input : String)
    (h : isBlank input = false) :
    ∃ r : RunResult, runEndpoint compiler input = Except.ok r
      ∧ r.spec = compiler input
      ∧ r.gate_result = evaluate (compiler input)
      ∧ ((compiler input).goal = none → r.gate_result.gate_s.missing_fields ≠ []) := by
  refine ⟨RunResult.mk
    (if (evaluate (compiler input)).overall_pass then FeatureStatus.executable_ready
      else FeatureStatus.clarifying)
    (compiler input) (evaluate (compiler input)), ?_, rfl, rfl, ?_⟩
  · unfold runEndpoint
    rw [if_neg (by simp [h])]
  · intro hg
    have hgs : (evaluate (compiler input)).gate_s = gateSCheck (compiler input) := rfl
    rw [hgs]
    unfold gateSCheck
    simp only [hg]
    rw [show goalOk none = false from rfl]
    simp

/-- C9 witness: on the concrete input "hello" with a compiler returning the
all-empty specification version, the endpoint returns a success payload whose
Gate S missing-field findings are non-empty. -/
theorem run_no_hard_failure_witness :
    ∃ r : RunResult, runEndpoint (fun _ => emptySpec) "hello" = Except.ok r
      ∧ r.spec = emptySpec
      ∧ r.gate_result = evaluate emptySpec
      ∧ (emptySpec.goal = none → r.gate_result.gate_s.missing_fields ≠ []) :=
  run_no_hard_failure (fun _ => emptySpec) "hello" rfl

/-! ## Claim C10 — totality and characterization of checkBackendHealth -/

theorem append_ne_empty_left (a b : String) (ha : a.length ≠ 0) : a ++ b ≠ "" := by
  intro h
  have h2 := congrArg String.length h
  rw [String.length_append] at h2
  have h3 : String.length "" = 0 := rfl
  rw [h3] at h2
  exact ha (by omega)

theorem append3_ne_empty (a t b : String) (ha : a.length ≠ 0) : a ++ t ++ b ≠ "" := by
  intro h
  have h2 := congrArg String.length h
  rw [String.length_append, String.length_append] at h2
  have h3 : String.length "" = 0 := rfl
  rw [h3] at h2
  exact ha (by omega)

theorem healthCatch_spec (e : JsError) :
    (healthCatch e).healthy = false
      ∧ ∃ m, (healthCatch e).error = some m ∧ m ≠ "" := by
  unfold healthCatch
  by_cases h1 : (e.name == "AbortError") = true
  · rw [if_pos h1]
    exact ⟨rfl, "后端服务响应超时，请检查服务是否启动", rfl, by decide⟩
  · rw [if_neg h1]
    by_cases h2 : (e.name == "TypeError" && strContains e.message "fetch") = true
    · rw [if_pos h2]
      exact ⟨rfl, "无法连接到后端服务，请检查服务是否启动", rfl, by decide⟩
    · rw [if_neg h2]
      exact ⟨rfl, "健康检查失败: " ++ e.message, rfl,
        append_ne_empty_left _ _ (by decide)⟩

/-- C10: checkBackendHealth is a total function of the request outcome
(by construction it never throws), it resolves healthy exactly when the
response is ok and the parsed body's status equals healthy or ok, and on a
non-ok response, an aborted (timed-out) request, or a network failure —
indeed on every thrown error — it resolves to healthy false with a
non-empty descriptive error message. -/
theorem checkBackendHealth_characterization (o : FetchOutcome) :
    ((checkBackendHealth o).healthy = true ↔
      ∃ code body, o = FetchOutcome.response true code (Except.ok body)
        ∧ (body.status = some "healthy" ∨ body.status = some "ok"))
    ∧ (∀ code b, (checkBackendHealth (FetchOutcome.response false code b)).healthy = false
        ∧ ∃ m, (checkBackendHealth (FetchOutcome.response false code b)).error = some m
          ∧ m ≠ "")
    ∧ (∀ e : JsError, e.name = "AbortError" →
        (checkBackendHealth (FetchOutcome.failure e)).healthy = false
        ∧ (checkBackendHealth (FetchOutcome.failure e)).error
            = some "后端服务响应超时，请检查服务是否启动")
    ∧ (∀ e : JsError, e.name = "TypeError" → strContains e.message "fetch" = true →
        (checkBackendHealth (FetchOutcome.failure e)).healthy = false
        ∧ (checkBackendHealth (FetchOutcome.failure e)).error
            = some "无法连接到后端服务，请检查服务是否启动")
    ∧ (∀ e : JsError, (checkBackendHealth (FetchOutcome.failure e)).healthy = false
        ∧ ∃ m, (checkBackendHealth (FetchOutcome.failure e)).error = some m ∧ m ≠ "") := by
  refine ⟨?_, ?_, ?_, ?_, ?_⟩
  · constructor
    · intro hh
      cases o with
      | response ok code body =>
          cases ok with
          | false => exact absurd hh (by simp [checkBackendHealth])
          | true =>
              cases body with
              | error e =>
                  exact absurd hh (by simp [checkBackendHealth, (healthCatch_spec e).1])
              | ok b =>
                  refine ⟨code, b, rfl, ?_⟩
                  by_cases hs : (b.status == some "healthy" || b.status == some "ok") = true
                  · rcases Bool.or_eq_true _ _ ▸ hs with h | h
                    · exact Or.inl (by simpa using h)
                    · exact Or.inr (by simpa using h)
                  · exact absurd hh (by simp [checkBackendHealth, hs])
      | failure e =>
          exact absurd hh (by simp [checkBackendHealth, (healthCatch_spec e).1])
    · rintro ⟨code, b, rfl, hs⟩
      have hcond : (b.status == some "healthy" || b.status == some "ok") = true := by
        rcases hs with h | h <;> simp [h]
      simp [checkBackendHealth, hcond]
  · intro code b
    exact ⟨rfl, "后端服务响应异常 (HTTP " ++ toString code ++ ")", rfl,
      append3_ne_empty _ _ _ (by decide)⟩
  · intro e he
    have h1 : (e.name == "AbortError") = true := by simp [he]
    constructor
    · show (healthCatch e).healthy = false
      unfold healthCatch
      rw [if_pos h1]
    · show (healthCatch e).error = _
      unfold healthCatch
      rw [if_pos h1]
  · intro e he hf
    have h1 : (e.name == "AbortError") = false := by simp [he]
    have h2 : (e.name == "TypeError" && strContains e.message "fetch") = true := by
      simp [he, hf]
    constructor
    · show (healthCatch e).healthy = false
      unfold healthCatch
      rw [if_neg (by simp [h1]), if_pos h2]
    · show (healthCatch e).error = _
      unfold healthCatch
      rw [if_neg (by simp [h1]), if_pos h2]
  · intro e
    exact ⟨(healthCatch_spec e).1, (healthCatch_spec e).2⟩

/-- C10 witness: the timeout, network-failure, non-ok, and healthy cases at
concrete outcomes. -/
theorem checkBackendHealth_witness :
    (checkBackendHealth (FetchOutcome.failure (JsError.mk "AbortError" "x"))).healthy = false
    ∧ (checkBackendHealth (FetchOutcome.failure
        (JsError.mk "TypeError" "Failed to fetch"))).healthy = false
    ∧ (checkBackendHealth (FetchOutcome.response false 500
        (Except.error (JsError.mk "e" "")))).healthy = false
    ∧ (checkBackendHealth (FetchOutcome.response true 200
        (Except.ok (HealthBody.mk (some "ok"))))).healthy = true :=
  ⟨((checkBackendHealth_characterization
      (FetchOutcome.failure (JsError.mk "AbortError" "x"))).2.2.1
        (JsError.mk "AbortError" "x") rfl).1,
   ((checkBackendHealth_characterization
      (FetchOutcome.failure (JsError.mk "TypeError" "Failed to fetch"))).2.2.2.1
        (JsError.mk "TypeError" "Failed to fetch") rfl rfl).1,
   ((checkBackendHealth_characterization
      (FetchOutcome.response false 500 (Except.error (JsError.mk "e" "")))).2.1
        500 (Except.error (JsError.mk "e" ""))).1,
   ((checkBackendHealth_characterization
      (FetchOutcome.response true 200 (Except.ok (HealthBody.mk (some "ok"))))).1).mpr
        ⟨200, HealthBody.mk (some "ok"), rfl, Or.inr rfl⟩⟩

end CanonicalSpec
